import Mathlib

/-!
Verification of the 3D-annotator bounding-box core.

Shallow embedding of the box-synchronization, slice-derivation,
projection and persistence logic of src/src/annotator.py.
Python floats are modelled as rationals; the CSV log is modelled as a
list of rows of cells.
-/

namespace Annotator

/-- The canonical 3D bounding box, the Python list
[x1, x2, y1, y2, z1, z2] stored in TkAnnotator.box_3d. -/
structure Box where
  x1 : ℚ
  x2 : ℚ
  y1 : ℚ
  y2 : ℚ
  z1 : ℚ
  z2 : ℚ
deriving DecidableEq

/-- Write value v to position i of the six-slot box list
[x1, x2, y1, y2, z1, z2], mirroring the Python item assignment
box_3d[idx] = val. -/
def Box.set (b : Box) : ℕ → ℚ → Box
  | 0, v => ⟨v, b.x2, b.y1, b.y2, b.z1, b.z2⟩
  | 1, v => ⟨b.x1, v, b.y1, b.y2, b.z1, b.z2⟩
  | 2, v => ⟨b.x1, b.x2, v, b.y2, b.z1, b.z2⟩
  | 3, v => ⟨b.x1, b.x2, b.y1, v, b.z1, b.z2⟩
  | 4, v => ⟨b.x1, b.x2, b.y1, b.y2, v, b.z2⟩
  | 5, v => ⟨b.x1, b.x2, b.y1, b.y2, b.z1, v⟩
  | _, _ => b

/-- Read position i of the six-slot box list, mirroring box_3d[i]. -/
def Box.get (b : Box) : ℕ → ℚ
  | 0 => b.x1
  | 1 => b.x2
  | 2 => b.y1
  | 3 => b.y2
  | 4 => b.z1
  | 5 => b.z2
  | _ => 0

/-- TkAnnotator.update_box_from_view: when no box exists yet it is
initialized to the full volume extent [0, nx, 0, ny, 0, nz]
(self.data.shape), then the listed indices are overwritten with the
given values (the zip loop of the Python code). -/
def update_box_from_view (shape : ℕ × ℕ × ℕ) (box : Option Box)
    (dim_indices : List ℕ) (values : List ℚ) : Box :=
  let b0 : Box :=
    match box with
    | none => ⟨0, (shape.1 : ℚ), 0, (shape.2.1 : ℚ), 0, (shape.2.2 : ℚ)⟩
    | some b => b
  (dim_indices.zip values).foldl (fun b iv => b.set iv.1 iv.2) b0

/-- TkAnnotator.on_select_ap: eclick = (ex, ey), erelease = (rx, ry);
writes min/max of the drawn rectangle into x (indices 0,1) and
z (indices 4,5). -/
def on_select_ap (shape : ℕ × ℕ × ℕ) (box : Option Box)
    (ex ey rx ry : ℚ) : Box :=
  update_box_from_view shape box [0, 1, 4, 5]
    [min ex rx, max ex rx, min ey ry, max ey ry]

/-- TkAnnotator.on_select_lat: writes y (indices 2,3) and z (4,5). -/
def on_select_lat (shape : ℕ × ℕ × ℕ) (box : Option Box)
    (ex ey rx ry : ℚ) : Box :=
  update_box_from_view shape box [2, 3, 4, 5]
    [min ex rx, max ex rx, min ey ry, max ey ry]

/-- TkAnnotator.on_select_axial: writes x (0,1) and y (2,3). -/
def on_select_axial (shape : ℕ × ℕ × ℕ) (box : Option Box)
    (ex ey rx ry : ℚ) : Box :=
  update_box_from_view shape box [0, 1, 2, 3]
    [min ex rx, max ex rx, min ey ry, max ey ry]

/-- TkAnnotator.on_select_coronal: writes x (0,1) and z (4,5). -/
def on_select_coronal (shape : ℕ × ℕ × ℕ) (box : Option Box)
    (ex ey rx ry : ℚ) : Box :=
  update_box_from_view shape box [0, 1, 4, 5]
    [min ex rx, max ex rx, min ey ry, max ey ry]

/-- TkAnnotator.on_select_sagittal: writes y (2,3) and z (4,5). -/
def on_select_sagittal (shape : ℕ × ℕ × ℕ) (box : Option Box)
    (ex ey rx ry : ℚ) : Box :=
  update_box_from_view shape box [2, 3, 4, 5]
    [min ex rx, max ex rx, min ey ry, max ey ry]

/-- One rectangle-drawn event from one of the five views, carrying the
raw click and release coordinates. -/
inductive UpdateEvent
  | ap (ex ey rx ry : ℚ)
  | lat (ex ey rx ry : ℚ)
  | axial (ex ey rx ry : ℚ)
  | coronal (ex ey rx ry : ℚ)
  | sagittal (ex ey rx ry : ℚ)
deriving DecidableEq

/-- Dispatch one event to the matching selector callback. -/
def applyEvent (shape : ℕ × ℕ × ℕ) (box : Option Box) :
    UpdateEvent → Box
  | UpdateEvent.ap ex ey rx ry => on_select_ap shape box ex ey rx ry
  | UpdateEvent.lat ex ey rx ry => on_select_lat shape box ex ey rx ry
  | UpdateEvent.axial ex ey rx ry => on_select_axial shape box ex ey rx ry
  | UpdateEvent.coronal ex ey rx ry => on_select_coronal shape box ex ey rx ry
  | UpdateEvent.sagittal ex ey rx ry => on_select_sagittal shape box ex ey rx ry

/-- Run a sequence of view updates starting from no box (box_3d = None). -/
def runEvents (shape : ℕ × ℕ × ℕ) (evs : List UpdateEvent) : Option Box :=
  evs.foldl (fun ob e => some (applyEvent shape ob e)) none

/-- The box invariant: min on or below max on every axis pair. -/
def normalized (b : Box) : Prop :=
  b.x1 ≤ b.x2 ∧ b.y1 ≤ b.y2 ∧ b.z1 ≤ b.z2

/-- TkAnnotator.get_xyz: the center of each axis pair, None if no box. -/
def get_xyz : Option Box → Option (ℚ × ℚ × ℚ)
  | none => none
  | some b => some ((b.x1 + b.x2) / 2, (b.y1 + b.y2) / 2, (b.z1 + b.z2) / 2)

lemma normalized_applyEvent (shape : ℕ × ℕ × ℕ) (ob : Option Box)
    (e : UpdateEvent) (hob : ∀ bb, ob = some bb → normalized bb) :
    normalized (applyEvent shape ob e) := by
  cases e <;> cases ob <;>
    simp only [applyEvent, on_select_ap, on_select_lat, on_select_axial,
      on_select_coronal, on_select_sagittal, update_box_from_view,
      List.zip, List.zipWith, List.foldl, Box.set, normalized]
  case ap.none ex ey rx ry =>
    exact ⟨min_le_max, Nat.cast_nonneg _, min_le_max⟩
  case ap.some ex ey rx ry b =>
    exact ⟨min_le_max, (hob b rfl).2.1, min_le_max⟩
  case lat.none ex ey rx ry =>
    exact ⟨Nat.cast_nonneg _, min_le_max, min_le_max⟩
  case lat.some ex ey rx ry b =>
    exact ⟨(hob b rfl).1, min_le_max, min_le_max⟩
  case axial.none ex ey rx ry =>
    exact ⟨min_le_max, min_le_max, Nat.cast_nonneg _⟩
  case axial.some ex ey rx ry b =>
    exact ⟨min_le_max, min_le_max, (hob b rfl).2.2⟩
  case coronal.none ex ey rx ry =>
    exact ⟨min_le_max, Nat.cast_nonneg _, min_le_max⟩
  case coronal.some ex ey rx ry b =>
    exact ⟨min_le_max, (hob b rfl).2.1, min_le_max⟩
  case sagittal.none ex ey rx ry =>
    exact ⟨Nat.cast_nonneg _, min_le_max, min_le_max⟩
  case sagittal.some ex ey rx ry b =>
    exact ⟨(hob b rfl).1, min_le_max, min_le_max⟩

lemma runEvents_aux (shape : ℕ × ℕ × ℕ) (evs : List UpdateEvent) :
    ∀ ob : Option Box, (∀ bb, ob = some bb → normalized bb) →
    ∀ b, evs.foldl (fun o e => some (applyEvent shape o e)) ob = some b →
    normalized b := by
  induction evs with
  | nil =>
    intro ob hob b h
    exact hob b h
  | cons e es ih =>
    intro ob hob b h
    refine ih (some (applyEvent shape ob e)) ?_ b h
    intro bb hbb
    cases hbb
    exact normalized_applyEvent shape ob e hob

/-- C1: every sequence of partial updates from the five views, starting
from no box, yields a box satisfying min on or below max on every axis
pair after each update (each update writes min/max-normalized values and
initialization uses the nonnegative full volume extent). -/
theorem box_normalized_after_any_sequence (shape : ℕ × ℕ × ℕ)
    (evs : List UpdateEvent) (b : Box)
    (h : runEvents shape evs = some b) : normalized b :=
  runEvents_aux shape evs none (fun _ h0 => by cases h0) b h

/-- Witness for C1 at a concrete event sequence. -/
theorem box_normalized_after_any_sequence_witness :
    normalized ⟨10, 40, 0, 128, 5, 20⟩ :=
  box_normalized_after_any_sequence (128, 128, 64)
    [UpdateEvent.ap 10 5 40 20] ⟨10, 40, 0, 128, 5, 20⟩ (by decide)

/-- C2: an update arriving when no box exists first initializes the box
to the full volume extent and then overwrites the two controlled axis
pairs; concretely on a (128,128,64) volume an AP rectangle x in [10,40],
z in [5,20] gives (10,40, 0,128, 5,20), a following Lateral rectangle
y in [30,50], z in [8,18] gives (10,40, 30,50, 8,18), and the center is
then (25, 40, 13). -/
theorem first_update_initializes_full_extent :
    (∀ (shape : ℕ × ℕ × ℕ) (e : UpdateEvent),
      applyEvent shape none e =
        applyEvent shape
          (some ⟨0, (shape.1 : ℚ), 0, (shape.2.1 : ℚ), 0, (shape.2.2 : ℚ)⟩) e)
    ∧ runEvents (128, 128, 64) [UpdateEvent.ap 10 5 40 20] =
        some ⟨10, 40, 0, 128, 5, 20⟩
    ∧ runEvents (128, 128, 64)
        [UpdateEvent.ap 10 5 40 20, UpdateEvent.lat 30 8 50 18] =
        some ⟨10, 40, 30, 50, 8, 18⟩
    ∧ get_xyz (runEvents (128, 128, 64)
        [UpdateEvent.ap 10 5 40 20, UpdateEvent.lat 30 8 50 18]) =
        some (25, 40, 13) := by
  have h2 : runEvents (128, 128, 64)
      [UpdateEvent.ap 10 5 40 20, UpdateEvent.lat 30 8 50 18] =
      some ⟨10, 40, 30, 50, 8, 18⟩ := by decide
  refine ⟨?_, by decide, h2, ?_⟩
  · intro shape e
    cases e <;> rfl
  · rw [h2]
    show some (((10 : ℚ) + 40) / 2, ((30 : ℚ) + 50) / 2, ((8 : ℚ) + 18) / 2) =
      some (25, 40, 13)
    norm_num

/-- C3: each view mutates only its two controlled axis pairs and leaves
the remaining axis pair of an existing box exactly unchanged: Axial
leaves z, AP leaves y, Lateral leaves x, Coronal leaves y, Sagittal
leaves x. -/
theorem view_update_frame_condition (shape : ℕ × ℕ × ℕ) (b : Box)
    (ex ey rx ry : ℚ) :
    (on_select_axial shape (some b) ex ey rx ry).z1 = b.z1
    ∧ (on_select_axial shape (some b) ex ey rx ry).z2 = b.z2
    ∧ (on_select_ap shape (some b) ex ey rx ry).y1 = b.y1
    ∧ (on_select_ap shape (some b) ex ey rx ry).y2 = b.y2
    ∧ (on_select_lat shape (some b) ex ey rx ry).x1 = b.x1
    ∧ (on_select_lat shape (some b) ex ey rx ry).x2 = b.x2
    ∧ (on_select_coronal shape (some b) ex ey rx ry).y1 = b.y1
    ∧ (on_select_coronal shape (some b) ex ey rx ry).y2 = b.y2
    ∧ (on_select_sagittal shape (some b) ex ey rx ry).x1 = b.x1
    ∧ (on_select_sagittal shape (some b) ex ey rx ry).x2 = b.x2 :=
  ⟨rfl, rfl, rfl, rfl, rfl, rfl, rfl, rfl, rfl, rfl⟩

/-- TkAnnotator.on_scroll.shift_box: reads the listed box slots, refuses
the move when min(vals) + delta drops below 0 or max(vals) + delta
reaches max_dim, otherwise adds delta to every listed slot. -/
def shift_box (b : Box) (indices : List ℕ) (delta : ℚ) (max_dim : ℕ) : Box :=
  let vals := indices.map b.get
  match vals.min?, vals.max? with
  | some lo, some hi =>
    if lo + delta < 0 ∨ (max_dim : ℚ) ≤ hi + delta then b
    else indices.foldl (fun bb i => bb.set i (bb.get i + delta)) b
  | _, _ => b

/-- The three MPR views that respond to scrolling. -/
inductive MprView
  | axial
  | coronal
  | sagittal
deriving DecidableEq

/-- TkAnnotator.on_scroll: the axial view shifts the z pair (indices
4,5) bounded by shape[2], coronal the y pair (2,3) bounded by shape[1],
sagittal the x pair (0,1) bounded by shape[0]. -/
def on_scroll (shape : ℕ × ℕ × ℕ) (v : MprView) (b : Box) (step : ℚ) :
    Box :=
  match v with
  | MprView.axial => shift_box b [4, 5] step shape.2.2
  | MprView.coronal => shift_box b [2, 3] step shape.2.1
  | MprView.sagittal => shift_box b [0, 1] step shape.1

/-- Depth axis pair read by scrolling on the given MPR view. -/
def depthPair (b : Box) : MprView → ℚ × ℚ
  | MprView.axial => (b.z1, b.z2)
  | MprView.coronal => (b.y1, b.y2)
  | MprView.sagittal => (b.x1, b.x2)

/-- Length of the volume axis bounding the scroll of the given view. -/
def axisLen (shape : ℕ × ℕ × ℕ) : MprView → ℕ
  | MprView.axial => shape.2.2
  | MprView.coronal => shape.2.1
  | MprView.sagittal => shape.1

/-- The box with the depth pair of the given view replaced and every
other slot untouched. -/
def setDepthPair (b : Box) : MprView → ℚ → ℚ → Box
  | MprView.axial, p, q => ⟨b.x1, b.x2, b.y1, b.y2, p, q⟩
  | MprView.coronal, p, q => ⟨b.x1, b.x2, p, q, b.z1, b.z2⟩
  | MprView.sagittal, p, q => ⟨p, q, b.y1, b.y2, b.z1, b.z2⟩

/-- C6: for an existing box and a scroll step in plus or minus one, when
the shifted depth pair would put either bound outside [0, axis length)
the box is left exactly unchanged in all six slots, and otherwise both
bounds of the depth pair move by the step and the other slots keep their
values. -/
theorem shift_refuses_out_of_bounds (shape : ℕ × ℕ × ℕ) (v : MprView)
    (b : Box) (delta : ℚ) (hdelta : delta = 1 ∨ delta = -1) :
    (((depthPair b v).1 + delta < 0 ∨ (depthPair b v).2 + delta < 0 ∨
        (axisLen shape v : ℚ) ≤ (depthPair b v).1 + delta ∨
        (axisLen shape v : ℚ) ≤ (depthPair b v).2 + delta) →
      on_scroll shape v b delta = b)
    ∧ (0 ≤ (depthPair b v).1 + delta → 0 ≤ (depthPair b v).2 + delta →
        (depthPair b v).1 + delta < (axisLen shape v : ℚ) →
        (depthPair b v).2 + delta < (axisLen shape v : ℚ) →
        on_scroll shape v b delta =
          setDepthPair b v ((depthPair b v).1 + delta)
            ((depthPair b v).2 + delta)) := by
  clear hdelta
  cases v <;>
    simp only [on_scroll, shift_box, depthPair, axisLen, setDepthPair,
      List.map, Box.get, List.min?, List.max?, List.foldl,
      Box.set] <;>
    constructor
  case axial.left =>
    intro h
    rw [if_pos]
    rcases h with h | h | h | h
    · exact Or.inl (lt_of_le_of_lt (by
        simpa using add_le_add_right (min_le_left b.z1 b.z2) delta) h)
    · exact Or.inl (lt_of_le_of_lt (by
        simpa using add_le_add_right (min_le_right b.z1 b.z2) delta) h)
    · exact Or.inr (le_trans h (by
        simpa using add_le_add_right (le_max_left b.z1 b.z2) delta))
    · exact Or.inr (le_trans h (by
        simpa using add_le_add_right (le_max_right b.z1 b.z2) delta))
  case axial.right =>
    intro h1 h2 h3 h4
    rw [if_neg]
    push_neg
    constructor
    · rw [← min_add_add_right]
      exact le_min h1 h2
    · rw [← max_add_add_right]
      exact max_lt h3 h4
  case coronal.left =>
    intro h
    rw [if_pos]
    rcases h with h | h | h | h
    · exact Or.inl (lt_of_le_of_lt (by
        simpa using add_le_add_right (min_le_left b.y1 b.y2) delta) h)
    · exact Or.inl (lt_of_le_of_lt (by
        simpa using add_le_add_right (min_le_right b.y1 b.y2) delta) h)
    · exact Or.inr (le_trans h (by
        simpa using add_le_add_right (le_max_left b.y1 b.y2) delta))
    · exact Or.inr (le_trans h (by
        simpa using add_le_add_right (le_max_right b.y1 b.y2) delta))
  case coronal.right =>
    intro h1 h2 h3 h4
    rw [if_neg]
    push_neg
    constructor
    · rw [← min_add_add_right]
      exact le_min h1 h2
    · rw [← max_add_add_right]
      exact max_lt h3 h4
  case sagittal.left =>
    intro h
    rw [if_pos]
    rcases h with h | h | h | h
    · exact Or.inl (lt_of_le_of_lt (by
        simpa using add_le_add_right (min_le_left b.x1 b.x2) delta) h)
    · exact Or.inl (lt_of_le_of_lt (by
        simpa using add_le_add_right (min_le_right b.x1 b.x2) delta) h)
    · exact Or.inr (le_trans h (by
        simpa using add_le_add_right (le_max_left b.x1 b.x2) delta))
    · exact Or.inr (le_trans h (by
        simpa using add_le_add_right (le_max_right b.x1 b.x2) delta))
  case sagittal.right =>
    intro h1 h2 h3 h4
    rw [if_neg]
    push_neg
    constructor
    · rw [← min_add_add_right]
      exact le_min h1 h2
    · rw [← max_add_add_right]
      exact max_lt h3 h4

/-- Witness for C6: an in-range shift moves both z bounds by one, and a
shift that would push z1 below zero leaves the box unchanged. -/
theorem shift_refuses_out_of_bounds_witness :
    on_scroll (128, 128, 64) MprView.axial ⟨10, 40, 30, 50, 8, 18⟩ 1 =
      setDepthPair ⟨10, 40, 30, 50, 8, 18⟩ MprView.axial (8 + 1) (18 + 1)
    ∧ on_scroll (128, 128, 64) MprView.axial ⟨10, 40, 30, 50, 0, 18⟩ (-1) =
      ⟨10, 40, 30, 50, 0, 18⟩ := by
  constructor
  · exact (shift_refuses_out_of_bounds (128, 128, 64) MprView.axial
      ⟨10, 40, 30, 50, 8, 18⟩ 1 (Or.inl rfl)).2
      (by norm_num [depthPair]) (by norm_num [depthPair])
      (by norm_num [depthPair, axisLen]) (by norm_num [depthPair, axisLen])
  · exact (shift_refuses_out_of_bounds (128, 128, 64) MprView.axial
      ⟨10, 40, 30, 50, 0, 18⟩ (-1) (Or.inr rfl)).1
      (Or.inl (by norm_num [depthPair]))

/-- Truncation toward zero, the Python int() conversion applied to the
box center coordinates. -/
def ratTrunc (q : ℚ) : ℤ :=
  Int.tdiv q.num (q.den : ℤ)

/-- Clamp of a slice index into [0, n - 1], the Python
max(0, min(i, shape - 1)). -/
def clampIdx (i : ℤ) (n : ℕ) : ℤ :=
  max 0 (min i ((n : ℤ) - 1))

/-- TkAnnotator.visual_check: centers of the three axis pairs are
truncated to integers and clamped into the volume extent; the result is
current_slices = [iz, iy, ix]. -/
def visual_check (shape : ℕ × ℕ × ℕ) (b : Box) : ℤ × ℤ × ℤ :=
  (clampIdx (ratTrunc ((b.z1 + b.z2) / 2)) shape.2.2,
   clampIdx (ratTrunc ((b.y1 + b.y2) / 2)) shape.2.1,
   clampIdx (ratTrunc ((b.x1 + b.x2) / 2)) shape.1)

lemma clampIdx_mem (i : ℤ) (n : ℕ) (hn : 1 ≤ n) :
    0 ≤ clampIdx i n ∧ clampIdx i n ≤ (n : ℤ) - 1 := by
  have h1 : (1 : ℤ) ≤ (n : ℤ) := by exact_mod_cast hn
  refine ⟨le_max_left _ _, max_le (by omega) (min_le_right _ _)⟩

/-- C7: for every box, including boxes straddling or outside the volume,
the derived slice indices are clamped into [0, axis length - 1] on every
axis, hence are valid indices into a nonempty volume. -/
theorem visual_check_indices_valid (shape : ℕ × ℕ × ℕ) (b : Box)
    (hx : 1 ≤ shape.1) (hy : 1 ≤ shape.2.1) (hz : 1 ≤ shape.2.2) :
    (0 ≤ (visual_check shape b).1 ∧
      (visual_check shape b).1 ≤ (shape.2.2 : ℤ) - 1) ∧
    (0 ≤ (visual_check shape b).2.1 ∧
      (visual_check shape b).2.1 ≤ (shape.2.1 : ℤ) - 1) ∧
    (0 ≤ (visual_check shape b).2.2 ∧
      (visual_check shape b).2.2 ≤ (shape.1 : ℤ) - 1) :=
  ⟨clampIdx_mem _ _ hz, clampIdx_mem _ _ hy, clampIdx_mem _ _ hx⟩

/-- Witness for C7 with a box extending far past the volume boundary. -/
theorem visual_check_indices_valid_witness :
    (0 ≤ (visual_check (128, 128, 64) ⟨-30, 10, 100, 300, 50, 90⟩).1 ∧
      (visual_check (128, 128, 64) ⟨-30, 10, 100, 300, 50, 90⟩).1 ≤
        (64 : ℤ) - 1) ∧
    (0 ≤ (visual_check (128, 128, 64) ⟨-30, 10, 100, 300, 50, 90⟩).2.1 ∧
      (visual_check (128, 128, 64) ⟨-30, 10, 100, 300, 50, 90⟩).2.1 ≤
        (128 : ℤ) - 1) ∧
    (0 ≤ (visual_check (128, 128, 64) ⟨-30, 10, 100, 300, 50, 90⟩).2.2 ∧
      (visual_check (128, 128, 64) ⟨-30, 10, 100, 300, 50, 90⟩).2.2 ≤
        (128 : ℤ) - 1) :=
  visual_check_indices_valid (128, 128, 64) ⟨-30, 10, 100, 300, 50, 90⟩
    (by norm_num) (by norm_num) (by norm_num)

/-- TkAnnotator.apply_hu_scale: every voxel below the threshold is
replaced by the constant -1000, np.where(raw < threshold, -1000, raw). -/
def apply_hu_scale (threshold : ℚ) (raw : ℕ → ℕ → ℕ → ℚ) :
    ℕ → ℕ → ℕ → ℚ :=
  fun x y z => if raw x y z < threshold then -1000 else raw x y z

/-- The AP projection np.mean(data, axis=1).T: entry (z, x) is the mean
of data over the anterior-posterior axis y, so the superior-inferior
axis z is vertical after the transpose. -/
def ap_view (shape : ℕ × ℕ × ℕ) (data : ℕ → ℕ → ℕ → ℚ) : ℕ → ℕ → ℚ :=
  fun z x => ((Finset.range shape.2.1).sum (fun y => data x y z)) / shape.2.1

/-- The Lateral projection np.mean(data, axis=0).T: entry (z, y) is the
mean of data over the left-right axis x. -/
def lat_view (shape : ℕ × ℕ × ℕ) (data : ℕ → ℕ → ℕ → ℚ) : ℕ → ℕ → ℚ :=
  fun z y => ((Finset.range shape.1).sum (fun x => data x y z)) / shape.1

/-- The minimum intensity of the volume (fold of min over all voxels,
seeded at voxel (0,0,0)). -/
def volMin (shape : ℕ × ℕ × ℕ) (raw : ℕ → ℕ → ℕ → ℚ) : ℚ :=
  ((Finset.range shape.1 ×ˢ Finset.range shape.2.1 ×ˢ
    Finset.range shape.2.2).fold min (raw 0 0 0)
    (fun p => raw p.1 p.2.1 p.2.2))

/-- Thresholding as the specification words it: every value below the
threshold is replaced by the minimum value of the volume. Second
definition kept for comparison with apply_hu_scale. -/
def apply_hu_scale_specMin (shape : ℕ × ℕ × ℕ) (threshold : ℚ)
    (raw : ℕ → ℕ → ℕ → ℚ) : ℕ → ℕ → ℕ → ℚ :=
  fun x y z =>
    if raw x y z < threshold then volMin shape raw else raw x y z

/-- Counterexample to C8: on the constant-zero 1x1x1 volume with
threshold 1 the code projects -1000 while the mean of the volume with
sub-threshold values replaced by the volume minimum projects 0. -/
theorem ap_view_not_volume_min :
    ap_view (1, 1, 1) (apply_hu_scale 1 (fun _ _ _ => 0)) 0 0 = -1000
    ∧ ap_view (1, 1, 1)
        (apply_hu_scale_specMin (1, 1, 1) 1 (fun _ _ _ => 0)) 0 0 = 0
    ∧ ap_view (1, 1, 1) (apply_hu_scale 1 (fun _ _ _ => 0)) 0 0 ≠
      ap_view (1, 1, 1)
        (apply_hu_scale_specMin (1, 1, 1) 1 (fun _ _ _ => 0)) 0 0 := by
  have h1 : ap_view (1, 1, 1) (apply_hu_scale 1 (fun _ _ _ => 0)) 0 0 =
      -1000 := by
    simp [ap_view, apply_hu_scale]
  have h2 : ap_view (1, 1, 1)
      (apply_hu_scale_specMin (1, 1, 1) 1 (fun _ _ _ => 0)) 0 0 = 0 := by
    simp [ap_view, apply_hu_scale_specMin, volMin]
  refine ⟨h1, h2, ?_⟩
  rw [h1, h2]
  norm_num

/-- C8 amended: the AP view is the mean along the anterior-posterior
axis, and the Lateral view the mean along the left-right axis, of the
volume in which every value below the threshold is replaced by the
constant -1000 (the air value), transposed so the superior-inferior axis
is vertical; this agrees with the spec wording exactly when the volume
minimum is -1000. -/
theorem ap_lat_views_threshold_const (shape : ℕ × ℕ × ℕ) (threshold : ℚ)
    (raw : ℕ → ℕ → ℕ → ℚ) :
    (∀ z x, ap_view shape (apply_hu_scale threshold raw) z x =
      ((Finset.range shape.2.1).sum
        (fun y => if raw x y z < threshold then -1000 else raw x y z)) /
        shape.2.1)
    ∧ (∀ z y, lat_view shape (apply_hu_scale threshold raw) z y =
      ((Finset.range shape.1).sum
        (fun x => if raw x y z < threshold then -1000 else raw x y z)) /
        shape.1)
    ∧ (volMin shape raw = -1000 → ∀ x y z,
        apply_hu_scale threshold raw x y z =
          apply_hu_scale_specMin shape threshold raw x y z) := by
  refine ⟨fun z x => rfl, fun z y => rfl, fun hmin x y z => ?_⟩
  simp only [apply_hu_scale, apply_hu_scale_specMin, hmin]

/-- Witness for C8 amended on a volume whose minimum is -1000. -/
theorem ap_lat_views_threshold_const_witness :
    volMin (1, 1, 1) (fun _ _ _ => -1000) = -1000 ∧
    apply_hu_scale 1 (fun _ _ _ => -1000) 0 0 0 =
      apply_hu_scale_specMin (1, 1, 1) 1 (fun _ _ _ => -1000) 0 0 0 := by
  have hmin : volMin (1, 1, 1) (fun _ _ _ => (-1000 : ℚ)) = -1000 := by
    simp [volMin]
  exact ⟨hmin,
    (ap_lat_views_threshold_const (1, 1, 1) 1 (fun _ _ _ => -1000)).2.2
      hmin 0 0 0⟩

/-- One CSV cell of the annotation log. A plain text field is strC, a
number formatted with the fixed six-decimal format is numC carrying the
rounded value the format prints, and a four-number semicolon-joined box
encoding v1;v2;v3;v4 is encC carrying the four printed values. A cell
whose text does not parse as the expected numbers is a strC. -/
inductive Cell
  | strC (s : String)
  | numC (q : ℚ)
  | encC (a b c d : ℚ)
deriving DecidableEq

/-- Rows of the CSV log. -/
abbrev Row := List Cell

/-- Default cell used for out-of-range reads. -/
def dCell : Cell := Cell.strC ""

/-- Rounding to six decimal places: the value printed by the Python
fixed format with six digits after the point. -/
def round6 (q : ℚ) : ℚ :=
  ((round (q * 1000000) : ℤ) : ℚ) / 1000000

/-- The box with every coordinate rounded to six decimals. -/
def round6Box (b : Box) : Box :=
  ⟨round6 b.x1, round6 b.x2, round6 b.y1, round6 b.y2,
   round6 b.z1, round6 b.z2⟩

/-- The row written by TkAnnotator.submit_annotation: case id, file
name, resident, landmark index, landmark name, the three center
coordinates at six decimals, the AP encoding x1;x2;z1;z2 and the
Lateral encoding y1;y2;z1;z2 (the unified z saved into both). -/
def mkRow (caseId fileName resident lmIdx lmName : String) (b : Box) :
    Row :=
  [Cell.strC caseId, Cell.strC fileName, Cell.strC resident,
   Cell.strC lmIdx, Cell.strC lmName,
   Cell.numC (round6 ((b.x1 + b.x2) / 2)),
   Cell.numC (round6 ((b.y1 + b.y2) / 2)),
   Cell.numC (round6 ((b.z1 + b.z2) / 2)),
   Cell.encC (round6 b.x1) (round6 b.x2) (round6 b.z1) (round6 b.z2),
   Cell.encC (round6 b.y1) (round6 b.y2) (round6 b.z1) (round6 b.z2)]

/-- The header row written when a log file is created. -/
def headerRow : Row :=
  [Cell.strC "CaseID", Cell.strC "FileName", Cell.strC "Resident",
   Cell.strC "LandmarkIdx", Cell.strC "LandmarkName", Cell.strC "X",
   Cell.strC "Y", Cell.strC "Z", Cell.strC "AP_Box", Cell.strC "Lat_Box"]

/-- The filter of submit_annotation.is_duplicate: rows longer than nine
cells whose case id, resident and landmark index cells equal those of
the new row. -/
def rowMatchesRow (r new_row : Row) : Bool :=
  decide (9 < r.length) &&
  decide (r.getD 0 dCell = new_row.getD 0 dCell) &&
  decide (r.getD 2 dCell = new_row.getD 2 dCell) &&
  decide (r.getD 3 dCell = new_row.getD 3 dCell)

/-- The row filter of load_existing_annotation: at least ten cells and
the key cells equal to the current case id, resident name and landmark
index. -/
def rowMatchesKey (r : Row) (caseId resident lmIdx : String) : Bool :=
  decide (10 ≤ r.length) &&
  decide (r.getD 0 dCell = Cell.strC caseId) &&
  decide (r.getD 2 dCell = Cell.strC resident) &&
  decide (r.getD 3 dCell = Cell.strC lmIdx)

/-- A log file: none when the file does not exist, otherwise the full
list of its rows (header included when one was written). -/
abbrev LogFile := Option (List Row)

/-- TkAnnotator.submit_annotation.is_duplicate: false when the file is
missing or empty; otherwise the last row matching the key of the new
row is compared on cells five onward (center and both box encodings). -/
def is_duplicate (file : LogFile) (new_row : Row) : Bool :=
  match file with
  | none => false
  | some rows =>
    if rows.isEmpty then false
    else
      match (rows.filter (fun r => rowMatchesRow r new_row)).getLast? with
      | none => false
      | some last => decide (last.drop 5 = new_row.drop 5)

/-- Outcome of one save to one target log. -/
inductive SaveOutcome
  | Written
  | Duplicate
deriving DecidableEq

/-- One target iteration of TkAnnotator.submit_annotation: skip when the
row duplicates the last matching record, else append, writing the header
first when the file does not exist yet. -/
def save (file : LogFile) (row : Row) : LogFile × SaveOutcome :=
  if is_duplicate file row then (file, SaveOutcome.Duplicate)
  else
    match file with
    | none => (some [headerRow, row], SaveOutcome.Written)
    | some rows => (some (rows ++ [row]), SaveOutcome.Written)

/-- Parse of one box-encoding cell into its four numbers; any other
cell kind fails, modelling an unparsable field. -/
def parseBoxCell : Cell → Option (ℚ × ℚ × ℚ × ℚ)
  | Cell.encC a b c d => some (a, b, c, d)
  | _ => none

/-- Decoding of one stored record in load_existing_annotation: x from
the AP encoding, y from the Lateral encoding, z from the AP encoding. -/
def decodeRow (r : Row) : Option Box :=
  match parseBoxCell (r.getD 8 dCell), parseBoxCell (r.getD 9 dCell) with
  | some (ax1, ax2, az1, az2), some (ly1, ly2, _, _) =>
    some ⟨ax1, ax2, ly1, ly2, az1, az2⟩
  | _, _ => none

/-- The row-scan loop of load_existing_annotation: target_row keeps the
last row matching the key, rows with fewer than ten cells are passed
over by the filter inside rowMatchesKey. -/
def scanTarget (rows : List Row) (caseId resident lmIdx : String) :
    Option Row :=
  rows.foldl
    (fun acc r =>
      if rowMatchesKey r caseId resident lmIdx then some r else acc)
    none

/-- TkAnnotator.load_existing_annotation: missing file, empty resident
name, empty file or empty first row give no box; otherwise the scan
keeps the last row with at least ten cells matching the key, skipping
shorter rows, and the kept row is decoded; a failed decode gives no box
and leaves the in-memory box untouched. -/
def load_existing (file : LogFile) (caseId resident lmIdx : String) :
    Option Box :=
  if resident = "" then none
  else
    match file with
    | none => none
    | some [] => none
    | some (hdr :: rows) =>
      if hdr = [] then none
      else
        match scanTarget rows caseId resident lmIdx with
        | none => none
        | some target => decodeRow target

/-- Loading as the specification words it: malformed rows, both wrong
field count and unparsable numeric fields, are skipped during the scan,
and the last well-formed matching record is decoded. Second definition
kept for comparison with load_existing. -/
def loadLatest_skipMalformed (file : LogFile)
    (caseId resident lmIdx : String) : Option Box :=
  if resident = "" then none
  else
    match file with
    | none => none
    | some [] => none
    | some (hdr :: rows) =>
      if hdr = [] then none
      else
        match (rows.filter (fun r =>
            rowMatchesKey r caseId resident lmIdx &&
            (decodeRow r).isSome)).getLast? with
        | none => none
        | some target => decodeRow target

lemma foldl_pick_eq_filter_getLast {α : Type} (p : α → Bool)
    (l : List α) :
    l.foldl (fun acc r => if p r then some r else acc) (none : Option α) =
      (l.filter p).getLast? := by
  induction l using List.reverseRecOn with
  | nil => rfl
  | append_singleton xs x ih =>
    rw [List.foldl_append, List.filter_append]
    by_cases h : p x
    · simp [h, List.getLast?_concat]
    · simp [h, ih]

lemma scanTarget_eq_filter (rows : List Row)
    (caseId resident lmIdx : String) :
    scanTarget rows caseId resident lmIdx =
      (rows.filter (fun r => rowMatchesKey r caseId resident lmIdx)).getLast? :=
  foldl_pick_eq_filter_getLast _ rows

lemma rowMatchesKey_mkRow (caseId fileName resident lmIdx lmName : String)
    (b : Box) :
    rowMatchesKey (mkRow caseId fileName resident lmIdx lmName b)
      caseId resident lmIdx = true := by
  simp [rowMatchesKey, mkRow, List.getD]

lemma rowMatchesRow_eq_key (r : Row)
    (caseId fileName resident lmIdx lmName : String) (b : Box) :
    rowMatchesRow r (mkRow caseId fileName resident lmIdx lmName b) =
      rowMatchesKey r caseId resident lmIdx := by
  unfold rowMatchesRow rowMatchesKey
  have h1 : decide (9 < r.length) = decide (10 ≤ r.length) :=
    decide_eq_decide.mpr (by omega)
  rw [h1]
  rfl

lemma decodeRow_mkRow (caseId fileName resident lmIdx lmName : String)
    (b : Box) :
    decodeRow (mkRow caseId fileName resident lmIdx lmName b) =
      some (round6Box b) := rfl

lemma decodeRow_congr_drop5 (l1 l2 : Row) (h : l1.drop 5 = l2.drop 5) :
    decodeRow l1 = decodeRow l2 := by
  have h8 : l1.getD 8 dCell = l2.getD 8 dCell := by
    rw [List.getD_eq_getElem?_getD, List.getD_eq_getElem?_getD,
      show (8 : ℕ) = 5 + 3 from rfl, ← List.getElem?_drop,
      ← List.getElem?_drop, h]
  have h9 : l1.getD 9 dCell = l2.getD 9 dCell := by
    rw [List.getD_eq_getElem?_getD, List.getD_eq_getElem?_getD,
      show (9 : ℕ) = 5 + 4 from rfl, ← List.getElem?_drop,
      ← List.getElem?_drop, h]
  unfold decodeRow
  rw [h8, h9]

lemma round6_abs_le (q : ℚ) : |round6 q - q| ≤ 1 / 2000000 := by
  have h := abs_sub_round (q * 1000000)
  have e : |round6 q - q| =
      |q * 1000000 - (round (q * 1000000) : ℚ)| / 1000000 := by
    rw [abs_sub_comm]
    unfold round6
    rw [show q - ((round (q * 1000000) : ℤ) : ℚ) / 1000000 =
      (q * 1000000 - ((round (q * 1000000) : ℤ) : ℚ)) / 1000000 by ring]
    rw [abs_div, abs_of_nonneg (by norm_num : (0:ℚ) ≤ 1000000)]
  rw [e]
  calc |q * 1000000 - ((round (q * 1000000) : ℤ) : ℚ)| / 1000000
      ≤ (1 / 2) / 1000000 :=
        (div_le_div_right (by norm_num : (0:ℚ) < 1000000)).mpr h
    _ = 1 / 2000000 := by norm_num

lemma load_existing_cons (hdr : Row) (rows : List Row)
    (caseId resident lmIdx : String) (hname : resident ≠ "")
    (hhdr : hdr ≠ []) :
    load_existing (some (hdr :: rows)) caseId resident lmIdx =
      match scanTarget rows caseId resident lmIdx with
      | none => none
      | some target => decodeRow target := by
  unfold load_existing
  rw [if_neg hname]
  show (if hdr = [] then none
    else match scanTarget rows caseId resident lmIdx with
      | none => none
      | some target => decodeRow target) = _
  rw [if_neg hhdr]

lemma round6_intCast (n : ℤ) : round6 (n : ℚ) = (n : ℚ) := by
  unfold round6
  rw [show ((n : ℚ) * 1000000) = ((n * 1000000 : ℤ) : ℚ) by push_cast; ring,
    round_intCast]
  push_cast
  field_simp

/-- C4: saving a box and loading with the same key returns the box with
every coordinate rounded to the six-decimal serialization precision, so
each returned coordinate is within half of the last printed decimal of
the saved one. The file is either absent or starts with a header row
that does not match the key, as every log the store itself creates
does. -/
theorem save_then_load_roundtrip (file : LogFile)
    (caseId fileName resident lmIdx lmName : String) (b : Box)
    (hname : resident ≠ "")
    (hfile : file = none ∨ ∃ hdr rest, file = some (hdr :: rest) ∧
      hdr ≠ [] ∧ rowMatchesKey hdr caseId resident lmIdx = false) :
    load_existing
        (save file (mkRow caseId fileName resident lmIdx lmName b)).1
        caseId resident lmIdx = some (round6Box b)
    ∧ |(round6Box b).x1 - b.x1| ≤ 1 / 2000000
    ∧ |(round6Box b).x2 - b.x2| ≤ 1 / 2000000
    ∧ |(round6Box b).y1 - b.y1| ≤ 1 / 2000000
    ∧ |(round6Box b).y2 - b.y2| ≤ 1 / 2000000
    ∧ |(round6Box b).z1 - b.z1| ≤ 1 / 2000000
    ∧ |(round6Box b).z2 - b.z2| ≤ 1 / 2000000 := by
  refine ⟨?_, round6_abs_le _, round6_abs_le _, round6_abs_le _,
    round6_abs_le _, round6_abs_le _, round6_abs_le _⟩
  set row := mkRow caseId fileName resident lmIdx lmName b with hrow
  by_cases hd : is_duplicate file row
  · rcases hfile with hf | ⟨hdr, rest, hf, hhdr, hmk⟩
    · rw [hf] at hd
      simp [is_duplicate] at hd
    · rw [hf] at hd ⊢
      have hsave : (save (some (hdr :: rest)) row).1 = some (hdr :: rest) := by
        simp [save, hd]
      rw [hsave]
      have hfilter : (hdr :: rest).filter (fun r => rowMatchesRow r row) =
          rest.filter (fun r => rowMatchesKey r caseId resident lmIdx) := by
        have hp : (fun r => rowMatchesRow r row) =
            (fun r => rowMatchesKey r caseId resident lmIdx) := by
          funext r
          exact rowMatchesRow_eq_key r caseId fileName resident lmIdx lmName b
        rw [hp, List.filter_cons_of_neg (by simp [hmk])]
      rw [load_existing_cons hdr rest caseId resident lmIdx hname hhdr,
        scanTarget_eq_filter]
      cases hgl : (rest.filter
          (fun r => rowMatchesKey r caseId resident lmIdx)).getLast? with
      | none =>
        exfalso
        rw [is_duplicate.eq_def] at hd
        simp only [hfilter, hgl, List.isEmpty_cons, Bool.false_eq_true,
          if_false] at hd
      | some last =>
        have hdrop : last.drop 5 = row.drop 5 := by
          rw [is_duplicate.eq_def] at hd
          simp only [hfilter, hgl, List.isEmpty_cons, Bool.false_eq_true,
            if_false, decide_eq_true_eq] at hd
          exact hd
        show decodeRow last = some (round6Box b)
        rw [decodeRow_congr_drop5 last row hdrop, hrow, decodeRow_mkRow]
  · have hb : is_duplicate file row = false := by simpa using hd
    rcases hfile with hf | ⟨hdr, rest, hf, hhdr, hmk⟩
    · rw [hf] at hb ⊢
      have hsave : (save none row).1 = some [headerRow, row] := by
        simp [save, hb]
      rw [hsave,
        load_existing_cons headerRow [row] caseId resident lmIdx hname
          (by simp [headerRow])]
      have hscan : scanTarget [row] caseId resident lmIdx = some row := by
        unfold scanTarget
        simp [List.foldl, hrow,
          rowMatchesKey_mkRow caseId fileName resident lmIdx lmName b]
      rw [hscan]
      show decodeRow row = some (round6Box b)
      rw [hrow, decodeRow_mkRow]
    · rw [hf] at hb ⊢
      have hsave : (save (some (hdr :: rest)) row).1 =
          some (hdr :: (rest ++ [row])) := by
        simp [save, hb]
      rw [hsave,
        load_existing_cons hdr (rest ++ [row]) caseId resident lmIdx hname hhdr]
      have hscan : scanTarget (rest ++ [row]) caseId resident lmIdx =
          some row := by
        unfold scanTarget
        rw [List.foldl_append]
        simp [List.foldl, hrow,
          rowMatchesKey_mkRow caseId fileName resident lmIdx lmName b]
      rw [hscan]
      show decodeRow row = some (round6Box b)
      rw [hrow, decodeRow_mkRow]

/-- Witness for C4: a fresh log, key (001, Jane, 3), an integer box. -/
theorem save_then_load_roundtrip_witness :
    load_existing
        (save none (mkRow "001" "f.nii.gz" "Jane" "3" "T1"
          ⟨10, 40, 30, 50, 8, 18⟩)).1 "001" "Jane" "3" =
      some (round6Box ⟨10, 40, 30, 50, 8, 18⟩)
    ∧ |(round6Box ⟨10, 40, 30, 50, 8, 18⟩).x1 - 10| ≤ 1 / 2000000 :=
  ⟨(save_then_load_roundtrip none "001" "f.nii.gz" "Jane" "3" "T1"
      ⟨10, 40, 30, 50, 8, 18⟩ (by decide) (Or.inl rfl)).1,
   (save_then_load_roundtrip none "001" "f.nii.gz" "Jane" "3" "T1"
      ⟨10, 40, 30, 50, 8, 18⟩ (by decide) (Or.inl rfl)).2.1⟩

lemma is_duplicate_some (rows : List Row) (new_row : Row) :
    is_duplicate (some rows) new_row =
      if rows.isEmpty then false
      else
        match (rows.filter (fun r => rowMatchesRow r new_row)).getLast? with
        | none => false
        | some last => decide (last.drop 5 = new_row.drop 5) := rfl

lemma is_duplicate_append_self (rows : List Row)
    (caseId fileName resident lmIdx lmName : String) (b : Box) :
    is_duplicate
      (some (rows ++ [mkRow caseId fileName resident lmIdx lmName b]))
      (mkRow caseId fileName resident lmIdx lmName b) = true := by
  set row := mkRow caseId fileName resident lmIdx lmName b with hrow
  have hself : rowMatchesRow row row = true := by
    rw [hrow]
    rw [rowMatchesRow_eq_key (mkRow caseId fileName resident lmIdx lmName b)
      caseId fileName resident lmIdx lmName b]
    exact rowMatchesKey_mkRow caseId fileName resident lmIdx lmName b
  rw [is_duplicate_some]
  rw [if_neg (by simp)]
  have hfil : (rows ++ [row]).filter (fun r => rowMatchesRow r row) =
      rows.filter (fun r => rowMatchesRow r row) ++ [row] := by
    rw [List.filter_append]
    simp [hself]
  rw [hfil, List.getLast?_concat]
  simp

lemma mkRow_drop5_round6_eq
    (caseId fileName fileName2 resident lmIdx lmName lmName2 : String)
    (b bPrev : Box)
    (h : (mkRow caseId fileName2 resident lmIdx lmName2 bPrev).drop 5 =
      (mkRow caseId fileName resident lmIdx lmName b).drop 5) :
    round6Box b = round6Box bPrev := by
  have h2 : [Cell.numC (round6 ((bPrev.x1 + bPrev.x2) / 2)),
      Cell.numC (round6 ((bPrev.y1 + bPrev.y2) / 2)),
      Cell.numC (round6 ((bPrev.z1 + bPrev.z2) / 2)),
      Cell.encC (round6 bPrev.x1) (round6 bPrev.x2) (round6 bPrev.z1)
        (round6 bPrev.z2),
      Cell.encC (round6 bPrev.y1) (round6 bPrev.y2) (round6 bPrev.z1)
        (round6 bPrev.z2)] =
      [Cell.numC (round6 ((b.x1 + b.x2) / 2)),
       Cell.numC (round6 ((b.y1 + b.y2) / 2)),
       Cell.numC (round6 ((b.z1 + b.z2) / 2)),
       Cell.encC (round6 b.x1) (round6 b.x2) (round6 b.z1) (round6 b.z2),
       Cell.encC (round6 b.y1) (round6 b.y2) (round6 b.z1)
         (round6 b.z2)] := h
  simp only [List.cons.injEq, Cell.numC.injEq, Cell.encC.injEq,
    and_true] at h2
  obtain ⟨-, -, -, ⟨hx1, hx2, hz1, hz2⟩, hy1, hy2, -, -⟩ := h2
  simp only [round6Box, Box.mk.injEq]
  exact ⟨hx1.symm, hx2.symm, hy1.symm, hy2.symm, hz1.symm, hz2.symm⟩

/-- C5: saving a box whose row is not already the last matching record
appends it once and a second identical save is detected as a duplicate
of that last matching record and skipped, so the pair of saves appends
exactly one record; and saving a box whose six-decimal encoding differs
from the prior record for the key in at least one coordinate always
appends a new record. -/
theorem save_twice_appends_once_and_changed_box_appends :
    (∀ (file : LogFile)
      (caseId fileName resident lmIdx lmName : String) (b : Box),
      is_duplicate file (mkRow caseId fileName resident lmIdx lmName b) =
        false →
      ∃ base,
        (save file (mkRow caseId fileName resident lmIdx lmName b)).1 =
          some (base ++ [mkRow caseId fileName resident lmIdx lmName b])
        ∧ (save file (mkRow caseId fileName resident lmIdx lmName b)).2 =
            SaveOutcome.Written
        ∧ save (save file (mkRow caseId fileName resident lmIdx lmName b)).1
            (mkRow caseId fileName resident lmIdx lmName b) =
          ((save file (mkRow caseId fileName resident lmIdx lmName b)).1,
            SaveOutcome.Duplicate))
    ∧ (∀ (rows : List Row)
        (caseId fileName fileName2 resident lmIdx lmName lmName2 : String)
        (b bPrev : Box),
        (rows.filter (fun r =>
          rowMatchesRow r
            (mkRow caseId fileName resident lmIdx lmName b))).getLast? =
          some (mkRow caseId fileName2 resident lmIdx lmName2 bPrev) →
        round6Box b ≠ round6Box bPrev →
        save (some rows) (mkRow caseId fileName resident lmIdx lmName b) =
          (some (rows ++ [mkRow caseId fileName resident lmIdx lmName b]),
            SaveOutcome.Written)) := by
  constructor
  · intro file caseId fileName resident lmIdx lmName b h
    set row := mkRow caseId fileName resident lmIdx lmName b with hrow
    cases file with
    | none =>
      refine ⟨[headerRow], ?_, ?_, ?_⟩
      · simp [save, h]
      · simp [save, h]
      · have h1 : (save none row).1 = some ([headerRow] ++ [row]) := by
          simp [save, h]
        rw [h1]
        have hdup2 := is_duplicate_append_self [headerRow]
          caseId fileName resident lmIdx lmName b
        rw [← hrow] at hdup2
        have hdup3 : is_duplicate (some [headerRow, row]) row = true := hdup2
        simp [save, hdup3]
    | some rows =>
      refine ⟨rows, ?_, ?_, ?_⟩
      · simp [save, h]
      · simp [save, h]
      · have h1 : (save (some rows) row).1 = some (rows ++ [row]) := by
          simp [save, h]
        rw [h1]
        have hdup2 := is_duplicate_append_self rows
          caseId fileName resident lmIdx lmName b
        rw [← hrow] at hdup2
        simp [save, hdup2]
  · intro rows caseId fileName fileName2 resident lmIdx lmName lmName2
      b bPrev hlast hneq
    set row := mkRow caseId fileName resident lmIdx lmName b with hrow
    have hdup : is_duplicate (some rows) row = false := by
      rw [is_duplicate_some]
      have hne : rows.isEmpty = false := by
        cases rows with
        | nil => simp at hlast
        | cons r rs => rfl
      rw [hne]
      simp only [Bool.false_eq_true, if_false]
      rw [hrow] at hlast ⊢
      rw [hlast]
      apply decide_eq_false
      intro hcontra
      exact hneq (mkRow_drop5_round6_eq caseId fileName fileName2 resident
        lmIdx lmName lmName2 b bPrev hcontra)
    simp [save, hdup]

/-- Witness for C5: a fresh save then an identical save on an empty
store, and a save differing in one coordinate from the prior record. -/
theorem save_twice_appends_once_witness :
    (∃ base,
      (save none (mkRow "001" "f.nii.gz" "Jane" "3" "T1"
        ⟨0, 1, 0, 1, 0, 1⟩)).1 =
        some (base ++ [mkRow "001" "f.nii.gz" "Jane" "3" "T1"
          ⟨0, 1, 0, 1, 0, 1⟩])
      ∧ (save none (mkRow "001" "f.nii.gz" "Jane" "3" "T1"
          ⟨0, 1, 0, 1, 0, 1⟩)).2 = SaveOutcome.Written
      ∧ save (save none (mkRow "001" "f.nii.gz" "Jane" "3" "T1"
          ⟨0, 1, 0, 1, 0, 1⟩)).1
          (mkRow "001" "f.nii.gz" "Jane" "3" "T1" ⟨0, 1, 0, 1, 0, 1⟩) =
        ((save none (mkRow "001" "f.nii.gz" "Jane" "3" "T1"
          ⟨0, 1, 0, 1, 0, 1⟩)).1, SaveOutcome.Duplicate))
    ∧ save (some [headerRow,
        mkRow "001" "f.nii.gz" "Jane" "3" "T1" ⟨0, 1, 0, 1, 0, 1⟩])
        (mkRow "001" "f.nii.gz" "Jane" "3" "T1" ⟨0, 2, 0, 1, 0, 1⟩) =
      (some ([headerRow,
        mkRow "001" "f.nii.gz" "Jane" "3" "T1" ⟨0, 1, 0, 1, 0, 1⟩] ++
        [mkRow "001" "f.nii.gz" "Jane" "3" "T1" ⟨0, 2, 0, 1, 0, 1⟩]),
        SaveOutcome.Written) := by
  constructor
  · exact save_twice_appends_once_and_changed_box_appends.1 none
      "001" "f.nii.gz" "Jane" "3" "T1" ⟨0, 1, 0, 1, 0, 1⟩ rfl
  · refine save_twice_appends_once_and_changed_box_appends.2
      [headerRow, mkRow "001" "f.nii.gz" "Jane" "3" "T1" ⟨0, 1, 0, 1, 0, 1⟩]
      "001" "f.nii.gz" "f.nii.gz" "Jane" "3" "T1" "T1"
      ⟨0, 2, 0, 1, 0, 1⟩ ⟨0, 1, 0, 1, 0, 1⟩ rfl ?_
    have e1 : round6 (1 : ℚ) = 1 := by exact_mod_cast round6_intCast 1
    have e2 : round6 (2 : ℚ) = 2 := by exact_mod_cast round6_intCast 2
    intro hcontra
    have hx2 : round6 (2 : ℚ) = round6 (1 : ℚ) := congrArg Box.x2 hcontra
    rw [e1, e2] at hx2
    norm_num at hx2

/-- Counterexample to C9: in a log whose last matching row has
unparsable numeric fields while an earlier matching row is well formed,
the code returns no box instead of skipping the malformed row; the
skip-malformed loading written from the spec returns the earlier
well-formed record. -/
theorem load_unparsable_not_skipped_counterexample :
    load_existing
      (some [headerRow,
        mkRow "C1" "f.nii.gz" "Jane" "3" "T1" ⟨1, 2, 3, 4, 5, 6⟩,
        [Cell.strC "C1", Cell.strC "f.nii.gz", Cell.strC "Jane",
         Cell.strC "3", Cell.strC "T1", Cell.strC "x", Cell.strC "y",
         Cell.strC "z", Cell.strC "oops", Cell.strC "oops"]])
      "C1" "Jane" "3" = none
    ∧ loadLatest_skipMalformed
      (some [headerRow,
        mkRow "C1" "f.nii.gz" "Jane" "3" "T1" ⟨1, 2, 3, 4, 5, 6⟩,
        [Cell.strC "C1", Cell.strC "f.nii.gz", Cell.strC "Jane",
         Cell.strC "3", Cell.strC "T1", Cell.strC "x", Cell.strC "y",
         Cell.strC "z", Cell.strC "oops", Cell.strC "oops"]])
      "C1" "Jane" "3" = some ⟨1, 2, 3, 4, 5, 6⟩
    ∧ load_existing
      (some [headerRow,
        mkRow "C1" "f.nii.gz" "Jane" "3" "T1" ⟨1, 2, 3, 4, 5, 6⟩,
        [Cell.strC "C1", Cell.strC "f.nii.gz", Cell.strC "Jane",
         Cell.strC "3", Cell.strC "T1", Cell.strC "x", Cell.strC "y",
         Cell.strC "z", Cell.strC "oops", Cell.strC "oops"]])
      "C1" "Jane" "3" ≠
      loadLatest_skipMalformed
      (some [headerRow,
        mkRow "C1" "f.nii.gz" "Jane" "3" "T1" ⟨1, 2, 3, 4, 5, 6⟩,
        [Cell.strC "C1", Cell.strC "f.nii.gz", Cell.strC "Jane",
         Cell.strC "3", Cell.strC "T1", Cell.strC "x", Cell.strC "y",
         Cell.strC "z", Cell.strC "oops", Cell.strC "oops"]])
      "C1" "Jane" "3" := by
  have e1 : round6 (1 : ℚ) = 1 := by exact_mod_cast round6_intCast 1
  have e2 : round6 (2 : ℚ) = 2 := by exact_mod_cast round6_intCast 2
  have e3 : round6 (3 : ℚ) = 3 := by exact_mod_cast round6_intCast 3
  have e4 : round6 (4 : ℚ) = 4 := by exact_mod_cast round6_intCast 4
  have e5 : round6 (5 : ℚ) = 5 := by exact_mod_cast round6_intCast 5
  have e6 : round6 (6 : ℚ) = 6 := by exact_mod_cast round6_intCast 6
  have hbox : round6Box ⟨1, 2, 3, 4, 5, 6⟩ = ⟨1, 2, 3, 4, 5, 6⟩ := by
    simp [round6Box, e1, e2, e3, e4, e5, e6]
  have hcode : load_existing
      (some [headerRow,
        mkRow "C1" "f.nii.gz" "Jane" "3" "T1" ⟨1, 2, 3, 4, 5, 6⟩,
        [Cell.strC "C1", Cell.strC "f.nii.gz", Cell.strC "Jane",
         Cell.strC "3", Cell.strC "T1", Cell.strC "x", Cell.strC "y",
         Cell.strC "z", Cell.strC "oops", Cell.strC "oops"]])
      "C1" "Jane" "3" = none := rfl
  have hspec : loadLatest_skipMalformed
      (some [headerRow,
        mkRow "C1" "f.nii.gz" "Jane" "3" "T1" ⟨1, 2, 3, 4, 5, 6⟩,
        [Cell.strC "C1", Cell.strC "f.nii.gz", Cell.strC "Jane",
         Cell.strC "3", Cell.strC "T1", Cell.strC "x", Cell.strC "y",
         Cell.strC "z", Cell.strC "oops", Cell.strC "oops"]])
      "C1" "Jane" "3" = some (round6Box ⟨1, 2, 3, 4, 5, 6⟩) := rfl
  refine ⟨hcode, ?_, ?_⟩
  · rw [hspec, hbox]
  · rw [hcode, hspec, hbox]
    simp

/-- C9 amended: rows with fewer than ten cells are skipped by the scan
with no effect on the result; the load is a total function into an
optional box, so a failed decode reports no box rather than raising or
corrupting state; but a matching row with unparsable numeric fields is
not skipped: when the last matching row fails to decode, the load
returns no box even when an earlier matching row is well formed. -/
theorem load_skips_short_rows_and_fails_closed :
    (∀ (hdr shortRow : Row) (pre post : List Row)
      (caseId resident lmIdx : String),
      shortRow.length < 10 →
      load_existing (some (hdr :: (pre ++ shortRow :: post)))
        caseId resident lmIdx =
      load_existing (some (hdr :: (pre ++ post))) caseId resident lmIdx)
    ∧ (∀ (hdr good bad : Row) (pre : List Row)
        (caseId resident lmIdx : String) (bx : Box),
        resident ≠ "" → hdr ≠ [] →
        rowMatchesKey good caseId resident lmIdx = true →
        decodeRow good = some bx →
        rowMatchesKey bad caseId resident lmIdx = true →
        decodeRow bad = none →
        load_existing (some (hdr :: (pre ++ [good, bad])))
          caseId resident lmIdx = none) := by
  constructor
  · intro hdr shortRow pre post caseId resident lmIdx hshort
    have hmk : rowMatchesKey shortRow caseId resident lmIdx = false := by
      unfold rowMatchesKey
      have : decide (10 ≤ shortRow.length) = false :=
        decide_eq_false (by omega)
      rw [this]
      simp
    have hscan : scanTarget (pre ++ shortRow :: post) caseId resident lmIdx =
        scanTarget (pre ++ post) caseId resident lmIdx := by
      rw [scanTarget_eq_filter, scanTarget_eq_filter, List.filter_append,
        List.filter_append, List.filter_cons_of_neg (by simp [hmk])]
    by_cases hname : resident = ""
    · simp [load_existing, hname]
    · by_cases hhdr : hdr = []
      · simp [load_existing, hname, hhdr]
      · rw [load_existing_cons hdr (pre ++ shortRow :: post)
          caseId resident lmIdx hname hhdr,
          load_existing_cons hdr (pre ++ post)
          caseId resident lmIdx hname hhdr, hscan]
  · intro hdr good bad pre caseId resident lmIdx bx hname hhdr hgood hdec
      hbad hbaddec
    rw [load_existing_cons hdr (pre ++ [good, bad])
      caseId resident lmIdx hname hhdr]
    have hscan : scanTarget (pre ++ [good, bad]) caseId resident lmIdx =
        some bad := by
      unfold scanTarget
      rw [List.foldl_append]
      simp [List.foldl, hgood, hbad]
    rw [hscan]
    show decodeRow bad = none
    exact hbaddec

/-- Witness for C9 amended at a concrete log. -/
theorem load_skips_short_rows_witness :
    load_existing
      (some [headerRow, [Cell.strC "short"],
        mkRow "C1" "f.nii.gz" "Jane" "3" "T1" ⟨1, 2, 3, 4, 5, 6⟩])
      "C1" "Jane" "3" =
    load_existing
      (some [headerRow,
        mkRow "C1" "f.nii.gz" "Jane" "3" "T1" ⟨1, 2, 3, 4, 5, 6⟩])
      "C1" "Jane" "3"
    ∧ load_existing
      (some [headerRow,
        mkRow "C1" "f.nii.gz" "Jane" "3" "T1" ⟨1, 2, 3, 4, 5, 6⟩,
        [Cell.strC "C1", Cell.strC "f.nii.gz", Cell.strC "Jane",
         Cell.strC "3", Cell.strC "T1", Cell.strC "x", Cell.strC "y",
         Cell.strC "z", Cell.strC "bad", Cell.strC "bad"]])
      "C1" "Jane" "3" = none := by
  constructor
  · exact load_skips_short_rows_and_fails_closed.1 headerRow
      [Cell.strC "short"] []
      [mkRow "C1" "f.nii.gz" "Jane" "3" "T1" ⟨1, 2, 3, 4, 5, 6⟩]
      "C1" "Jane" "3" (by simp)
  · exact load_skips_short_rows_and_fails_closed.2 headerRow
      (mkRow "C1" "f.nii.gz" "Jane" "3" "T1" ⟨1, 2, 3, 4, 5, 6⟩)
      [Cell.strC "C1", Cell.strC "f.nii.gz", Cell.strC "Jane",
       Cell.strC "3", Cell.strC "T1", Cell.strC "x", Cell.strC "y",
       Cell.strC "z", Cell.strC "bad", Cell.strC "bad"] []
      "C1" "Jane" "3" (round6Box ⟨1, 2, 3, 4, 5, 6⟩)
      (by decide) (by decide) rfl rfl rfl rfl

/-- C10: decoding a stored record takes the z range from the third and
fourth numbers of the AP encoding; the z numbers of the Lateral encoding
never influence the decoded box, even when the two stored z ranges
disagree. -/
theorem decode_z_range_from_ap_encoding
    (c0 c1 c2 c3 c4 c5 c6 c7 : Cell)
    (ax1 ax2 az1 az2 ly1 ly2 lz1 lz2 lz1b lz2b : ℚ) :
    decodeRow [c0, c1, c2, c3, c4, c5, c6, c7,
        Cell.encC ax1 ax2 az1 az2, Cell.encC ly1 ly2 lz1 lz2] =
      some ⟨ax1, ax2, ly1, ly2, az1, az2⟩
    ∧ decodeRow [c0, c1, c2, c3, c4, c5, c6, c7,
        Cell.encC ax1 ax2 az1 az2, Cell.encC ly1 ly2 lz1 lz2] =
      decodeRow [c0, c1, c2, c3, c4, c5, c6, c7,
        Cell.encC ax1 ax2 az1 az2, Cell.encC ly1 ly2 lz1b lz2b] :=
  ⟨rfl, rfl⟩

end Annotator
